import Mathlib

/-!
Verification development for the BugBooth photobooth repository
(camera_server.py, photobooth_gui.py).

Shallow embedding conventions: python byte strings are `List Nat`
(each element intended < 256), socket receives on a byte stream take a
bounded slice of the remaining stream, float click fractions are `ℚ`,
exceptions become `Option`/`Except` values, and the nondeterministic
outcome of an individual socket operation (delivered / ECONNREFUSED /
ENOENT, capture result / timeout) is an input to the embedded function.

All definitions are translated from the source; theorems follow after
the definitions.
-/

namespace BugBooth

/-! ### Framed preview stream receiver (photobooth_gui.py, ImageReceiverStream.run)

The inner loop of `ImageReceiverStream.run` reads a 4-byte length header
with `recv(4)`, checks `len(preview_len_b) != 4 or len(preview_len_b) > 10000000`,
decodes the header big-endian, reads that many payload bytes, and emits the
payload only when the payload read returned exactly the decoded length.
`recv(n)` on a byte stream returns at most `n` bytes: we model it as
`List.take n` of the remaining stream. -/

/-- Big-endian decoding of a byte list, as `int.from_bytes(b, "big")`. -/
def beDecode (b : List Nat) : Nat :=
  b.foldl (fun a d => a * 256 + d) 0

/-- The 4-byte big-endian encoding of `n`, as produced by a sender writing
`n.to_bytes(4, "big")` (low byte last). -/
def beBytes4 (n : Nat) : List Nat :=
  [n / 16777216 % 256, n / 65536 % 256, n / 256 % 256, n % 256]

/-- The header guard of the receive loop, verbatim from
`if len(preview_len_b) != 4 or len(preview_len_b) > 10000000: continue`. -/
def sizeGuard (hdr : List Nat) : Bool :=
  hdr.length != 4 || hdr.length > 10000000

/-- The requested payload read size for stream `s`: `none` when the header
guard rejects the header read, otherwise the big-endian decode of the
4 header bytes, which is passed to `recv` as the payload size. -/
def requestedLen (s : List Nat) : Option Nat :=
  if sizeGuard (s.take 4) then none else some (beDecode (s.take 4))

/-- One iteration of the receive loop on the remaining stream `s`:
returns the emitted frame (`none` when the iteration hits a `continue`)
and the rest of the stream after the bytes consumed by the two `recv`s. -/
def receiverStep (s : List Nat) : Option (List Nat) × List Nat :=
  match requestedLen s with
  | none => (none, s.drop 4)
  | some n =>
    let payload := (s.drop 4).take n
    if payload.length ≠ n then (none, (s.drop 4).drop n)
    else (some payload, (s.drop 4).drop n)

/-- Sender-side framing: a 4-byte big-endian length header followed by the
frame bytes. -/
def encodeFrame (f : List Nat) : List Nat :=
  beBytes4 f.length ++ f

/-! ### Configuration (photobooth_gui.py, BugBoothConfig.__init__)

Only the fields the compositor and sequence thread read are modelled.
`BackgroundMode` is validated against `valid_bg_modes` with fallback
`"SingleVertical"`; the skip offsets are asserted present for the modes
that need them, so they are plain integers here. -/

structure BoothConfig where
  CountdownTimer : Nat
  DelayBetweenShots : Nat
  PhotosPerStrip : Nat
  BackgroundMode : String
  ThumbnailWidth : Nat
  ThumbnailX : Int
  ThumbnailY : Int
  ThumbnailSkipX : Int
  ThumbnailSkipY : Int
deriving Repr, DecidableEq

/-- `valid_bg_modes = ["SingleVertical", "DoubleVertical"]`. -/
def validBgModes : List String := ["SingleVertical", "DoubleVertical"]

/-- The `BackgroundMode` validation of `BugBoothConfig.__init__`: a mode
outside `valid_bg_modes` falls back to `"SingleVertical"`. -/
def normalizeBgMode (s : String) : String :=
  if validBgModes.contains s then s else "SingleVertical"

/-! ### Photostrip compositor (photobooth_gui.py, Photostrip.composite)

`composite` opens the photos, reads `img_w, img_h = photos[0].size`
(an `IndexError` on an empty photo list), computes one thumbnail height
from the first photo's aspect ratio, and dispatches on `self.bg_mode`:
the first branch tests the misspelled literal `"SingleVerticaL"`, the
second branch tests `"DoubleVertical"`, and the final `else` is
`assert False, "Composite mode unknown"`.  Photos are modelled by their
pixel sizes and the output by the list of paste operations applied to
the background. -/

inductive CompositeError where
  | indexError
  | unknownMode
deriving Repr, DecidableEq

/-- One `bg.paste(p, (x, y))` operation, recording which photo was pasted
where. -/
structure Paste where
  photoIdx : Nat
  x : Int
  y : Int
deriving Repr, DecidableEq

/-- `thumb_h = int(thumb_w / img_aspect)` with `img_aspect = img_w / img_h`:
truncation of a positive ratio, i.e. floor division. -/
def thumbHeight (thumbW imgW imgH : Nat) : Nat :=
  thumbW * imgH / imgW

/-- The paste list of the `"SingleVerticaL"` branch: photo `i` is pasted
once at `(ThumbnailX, ThumbnailY + (thumb_h + ThumbnailSkipY) * i)`. -/
def singleVerticalPastes (cfg : BoothConfig) (thumbH : Nat) (count : Nat) :
    List Paste :=
  (List.range count).map fun i =>
    { photoIdx := i, x := cfg.ThumbnailX,
      y := cfg.ThumbnailY + ((thumbH : Int) + cfg.ThumbnailSkipY) * i }

/-- The paste list of the `"DoubleVertical"` branch: photo `i` is pasted at
the single-vertical position and again at
`(ThumbnailX + ThumbnailSkipX + thumb_w, vpos)`. -/
def doubleVerticalPastes (cfg : BoothConfig) (thumbH : Nat) (count : Nat) :
    List Paste :=
  (List.range count).flatMap fun i =>
    let vpos : Int := cfg.ThumbnailY + ((thumbH : Int) + cfg.ThumbnailSkipY) * i
    [{ photoIdx := i, x := cfg.ThumbnailX, y := vpos },
     { photoIdx := i, x := cfg.ThumbnailX + cfg.ThumbnailSkipX + cfg.ThumbnailWidth,
       y := vpos }]

/-- `Photostrip.composite`, over the sizes of the photos in `photo_list`.
The background choice does not influence the paste positions. -/
def composite (cfg : BoothConfig) (photoSizes : List (Nat × Nat)) :
    Except CompositeError (List Paste) :=
  match photoSizes with
  | [] => .error .indexError
  | (imgW, imgH) :: _ =>
    let thumbH := thumbHeight cfg.ThumbnailWidth imgW imgH
    if cfg.BackgroundMode = "SingleVerticaL" then
      .ok (singleVerticalPastes cfg thumbH photoSizes.length)
    else if cfg.BackgroundMode = "DoubleVertical" then
      .ok (doubleVerticalPastes cfg thumbH photoSizes.length)
    else
      .error .unknownMode

/-- The end-to-end scenario A configuration: 4 shots, countdown 3, delay 1,
`SingleVertical` background, with representative thumbnail geometry. -/
def cfgScenarioA : BoothConfig :=
  { CountdownTimer := 3, DelayBetweenShots := 1, PhotosPerStrip := 4,
    BackgroundMode := normalizeBgMode "SingleVertical",
    ThumbnailWidth := 200, ThumbnailX := 10, ThumbnailY := 20,
    ThumbnailSkipX := 30, ThumbnailSkipY := 5 }

/-- Scenario A with the validated `DoubleVertical` mode instead. -/
def cfgScenarioD : BoothConfig :=
  { cfgScenarioA with BackgroundMode := normalizeBgMode "DoubleVertical" }

/-- Four 400x300 captures. -/
def photosScenarioA : List (Nat × Nat) :=
  [(400, 300), (400, 300), (400, 300), (400, 300)]

/-! ### Sequence thread capture loop (photobooth_gui.py, SequenceThread.run)

`run` binds the capture socket and sets `capture_socket.settimeout(10)`
once; per shot it runs the countdown, sends the trigger datagram, starts
`OneshotTimer(delay_between)`, then waits on `recvfrom` — appending the
decoded path on success and doing nothing on `socket.timeout` — and
finally waits out the timer.  After the loop the photo list is handed to
`Photostrip`. -/

/-- `capture_socket.settimeout(10)`. -/
def captureTimeoutSeconds : Nat := 10

/-- The observable actions of one shot iteration, in program order. -/
inductive ShotEvent where
  | countdown
  | sendCapture
  | timerStart
  | recvWait
  | clearOverlay
  | timerWait
deriving Repr, DecidableEq

/-- The per-shot action order of the loop body of `SequenceThread.run`:
the inter-shot delay timer is started before the blocking `recvfrom`. -/
def shotEvents : List ShotEvent :=
  [.countdown, .sendCapture, .timerStart, .recvWait, .clearOverlay, .timerWait]

/-- Phase reached after the shot loop. -/
inductive SeqPhase where
  | capturing
  | compositing
deriving Repr, DecidableEq

/-- The accumulation of `image_files` over the shot loop: each shot's
`recvfrom` either returns a path (appended) or times out (nothing
appended, `pass`). -/
def collectPaths : List (Option String) → List String
  | [] => []
  | some p :: rest => p :: collectPaths rest
  | none :: rest => collectPaths rest

/-- The shot loop of `SequenceThread.run` over the per-shot receive
outcomes, ending in the compositing phase. -/
def sequenceRun : List (Option String) → List String × SeqPhase
  | [] => ([], .compositing)
  | o :: rest =>
    let r := sequenceRun rest
    (match o with
     | some p => p :: r.1
     | none => r.1,
     r.2)

/-- `collectPaths` with the shot index attached, starting at index `i`. -/
def collectIdx (i : Nat) : List (Option String) → List (Nat × String)
  | [] => []
  | some p :: rest => (i, p) :: collectIdx (i + 1) rest
  | none :: rest => collectIdx (i + 1) rest

/-! ### Capture result paths (camera_server.py, PBCamera._capture_image)

In hardware mode each capture saves to `tempfile.mktemp(suffix=".jpg", dir=".")`,
a freshly generated name, and sends that path; in mock mode the fixed
payload `"mock_image.jpg"` is sent every time.  The fresh-name generator
is abstracted as a function from the capture ordinal to the chosen
path. -/

/-- The fixed mock-mode result payload `"mock_image.jpg"`. -/
def mockResultPath : String := "mock_image.jpg"

/-- Per-shot receive outcomes in hardware mode: shot `i` succeeds with the
freshly generated name `gen i` when `success` says so, else times out. -/
def hwOutcomes (gen : Nat → String) : Nat → List Bool → List (Option String)
  | _, [] => []
  | i, b :: rest => (if b then some (gen i) else none) :: hwOutcomes gen (i + 1) rest

/-- Per-shot receive outcomes of `n` successful mock-mode shots: every shot
delivers the same fixed path. -/
def mockOutcomes (n : Nat) : List (Option String) :=
  List.replicate n (some mockResultPath)

/-- A concrete fresh-name generator for witnesses (name length encodes the
ordinal, hence injective). -/
def tmpName (n : Nat) : String := String.mk (List.replicate n 'a')

/-! ### Print-count selection loop (photobooth_gui.py, SequenceThread.run)

After compositing, the thread drains the click queue, sets `ncopies = 2`
and runs `for i in range(200)` polling the queue with a 100ms timeout.
A click `(x, y)` with `0.3 < y < 0.7` adjusts: `x > 0.55` gives
`ncopies = min(ncopies + 2, 6)`, `x < 0.45` gives `ncopies = max(ncopies - 2, 0)`,
and `0.45 < x < 0.55` breaks out of the loop.  Clicks with `y` outside
the band change nothing.  Each loop iteration is modelled by an optional
click (`none` = the 100ms poll timed out). -/

/-- Result of processing one click inside the selection loop. -/
inductive ClickResult where
  | cont (n : Int)
  | stop (n : Int)
deriving Repr, DecidableEq

/-- The click interpretation of the selection loop body, verbatim from the
nested `if 0.3 < y < 0.7` block. -/
def clickStep (n : Int) (x y : ℚ) : ClickResult :=
  if (3 : ℚ)/10 < y ∧ y < 7/10 then
    if x > 11/20 then .cont (min (n + 2) 6)
    else if x < 9/20 then .cont (max (n - 2) 0)
    else if (9 : ℚ)/20 < x ∧ x < 11/20 then .stop n
    else .cont n
  else .cont n

/-- `ncopies = 2`. -/
def initialCopies : Int := 2

/-- `for i in range(200)`. -/
def printSelectIterations : Nat := 200

/-- The selection loop over the per-iteration poll results: `none` is an
empty poll (`queue.Empty` → `continue`), a confirm click breaks with the
current count, and running out of iterations returns the last count. -/
def printSelect : List (Option (ℚ × ℚ)) → Int → Int
  | [], n => n
  | none :: rest, n => printSelect rest n
  | some (x, y) :: rest, n =>
    match clickStep n x y with
    | .stop m => m
    | .cont m => printSelect rest m

/-- The whole selection phase: at most 200 poll iterations starting from
2 copies. -/
def printSelectRun (events : List (Option (ℚ × ℚ))) : Int :=
  printSelect (events.take printSelectIterations) initialCopies

/-- The copy count after one non-confirming iteration (used to state that
exhausting the loop proceeds with the accumulated count). -/
def contValue (n : Int) (e : Option (ℚ × ℚ)) : Int :=
  match e with
  | none => n
  | some (x, y) =>
    if (3 : ℚ)/10 < y ∧ y < 7/10 then
      if x > 11/20 then min (n + 2) 6
      else if x < 9/20 then max (n - 2) 0
      else n
    else n

/-- A click in the central confirm band. -/
def isConfirmClick (x y : ℚ) : Prop :=
  ((3 : ℚ)/10 < y ∧ y < 7/10) ∧ ((9 : ℚ)/20 < x ∧ x < 11/20)

instance (x y : ℚ) : Decidable (isConfirmClick x y) := by
  unfold isConfirmClick; infer_instance

/-! ### Click handling (photobooth_gui.py, CameraControlWindow.handleClick and
SequenceThread._empty_click_queue)

`handleClick` tries `sequence_sem.acquire(blocking=False)`: on success it
starts a new `SequenceThread`; on failure it puts the click on the queue.
`_empty_click_queue` pops with `get(block=False)` until `queue.Empty`. -/

/-- The front-end state visible to `handleClick`: the binary semaphore, the
click queue and the number of sequence threads started. -/
structure GuiState where
  semAvailable : Bool
  queue : List (ℚ × ℚ)
  sequencesStarted : Nat
deriving Repr, DecidableEq

/-- `CameraControlWindow.handleClick`. -/
def handleClick (s : GuiState) (c : ℚ × ℚ) : GuiState :=
  if s.semAvailable then
    { s with semAvailable := false, sequencesStarted := s.sequencesStarted + 1 }
  else
    { s with queue := s.queue ++ [c] }

/-- `SequenceThread._empty_click_queue`: pop until empty. -/
def emptyClickQueue : List (ℚ × ℚ) → List (ℚ × ℚ)
  | [] => []
  | _ :: rest => emptyClickQueue rest

/-! ### Camera-server sends (camera_server.py)

`PBCamera._capture_image` sends the result path exactly once: in mock
mode an unguarded `sendto("mock_image.jpg")`, in hardware mode a
`sendto(target)` wrapped only in `except ConnectionRefusedError` (which
prints "Connection was refused").  A `FileNotFoundError` — the errno for
a destination path that does not exist — is not caught on this path.

`DomainDGramPBCamera._preview_thread_action` sends each preview frame
with `except ConnectionRefusedError: pass` and
`except FileNotFoundError:` which logs, checks `if failcount == 2:
sys.exit(1)` and then does `failcount += 1`. -/

/-- The outcome of one `sendto` on a unix datagram socket. -/
inductive SendOutcome where
  | delivered
  | refused
  | pathMissing
deriving Repr, DecidableEq

/-- The python exception corresponding to a failed `sendto`. -/
inductive PyExc where
  | connectionRefused
  | fileNotFound
deriving Repr, DecidableEq

/-- The observable effect of `PBCamera._capture_image` after the capture
itself has completed: the payloads passed to `sendto`, the messages
printed by handled exceptions, and the exception escaping the method
(if any). -/
structure CaptureEffect where
  sendAttempts : List String
  logs : List String
  raised : Option PyExc
deriving Repr, DecidableEq

/-- The send portion of `PBCamera._capture_image`, for a capture whose
saved file is `target`, under send outcome `send`. -/
def captureImage (mock : Bool) (target : String) (send : SendOutcome) :
    CaptureEffect :=
  if mock then
    { sendAttempts := [mockResultPath],
      logs := [],
      raised :=
        match send with
        | .delivered => none
        | .refused => some .connectionRefused
        | .pathMissing => some .fileNotFound }
  else
    { sendAttempts := [target],
      logs :=
        match send with
        | .refused => ["Connection was refused"]
        | _ => [],
      raised :=
        match send with
        | .pathMissing => some .fileNotFound
        | _ => none }

/-- One iteration of the preview-datagram send loop of
`DomainDGramPBCamera._preview_thread_action`: `.error c` is `sys.exit(c)`,
`.ok fc` the updated `failcount`. -/
def previewStep (failcount : Nat) (send : SendOutcome) : Except Nat Nat :=
  match send with
  | .delivered => .ok failcount
  | .refused => .ok failcount
  | .pathMissing => if failcount == 2 then .error 1 else .ok (failcount + 1)

/-- The preview-datagram send loop over a list of send outcomes. -/
def previewLoop : Nat → List SendOutcome → Except Nat Nat
  | fc, [] => .ok fc
  | fc, s :: rest =>
    match previewStep fc s with
    | .error c => .error c
    | .ok fc2 => previewLoop fc2 rest

/-! ## Theorems -/

/-! ### Receiver helper lemmas -/

theorem length_beBytes4 (n : Nat) : (beBytes4 n).length = 4 := rfl

theorem beDecode_beBytes4 (n : Nat) (h : n < 4294967296) :
    beDecode (beBytes4 n) = n := by
  simp only [beDecode, beBytes4, List.foldl]
  omega

theorem sizeGuard_beBytes4 (n : Nat) : sizeGuard (beBytes4 n) = false := by
  simp [sizeGuard, beBytes4]

theorem take_append_of_length (l r : List Nat) (h : l.length = 4) :
    (l ++ r).take 4 = l := by
  rw [← h]; exact List.take_left l r

theorem drop_append_of_length (l r : List Nat) (h : l.length = 4) :
    (l ++ r).drop 4 = r := by
  rw [← h]; exact List.drop_left l r

theorem requestedLen_encode (n : Nat) (rest : List Nat) :
    requestedLen (beBytes4 n ++ rest) = some (beDecode (beBytes4 n)) := by
  unfold requestedLen
  rw [take_append_of_length _ _ (length_beBytes4 n), sizeGuard_beBytes4]
  simp

theorem receiverStep_encodeFrame (f rest : List Nat) (h : f.length < 4294967296) :
    receiverStep (encodeFrame f ++ rest) = (some f, rest) := by
  unfold receiverStep encodeFrame
  rw [List.append_assoc, requestedLen_encode, beDecode_beBytes4 _ h,
    drop_append_of_length _ _ (length_beBytes4 _)]
  simp

theorem receiverStep_full_header (n : Nat) (rest : List Nat)
    (hn : n < 4294967296) :
    receiverStep (beBytes4 n ++ rest) =
      if (rest.take n).length ≠ n then (none, rest.drop n)
      else (some (rest.take n), rest.drop n) := by
  unfold receiverStep
  rw [requestedLen_encode, beDecode_beBytes4 _ hn,
    drop_append_of_length _ _ (length_beBytes4 _)]

theorem receiverStep_short_payload (n : Nat) (data : List Nat)
    (hn : n < 4294967296) (hshort : data.length < n) :
    (receiverStep (beBytes4 n ++ data)).1 = none := by
  unfold receiverStep
  rw [requestedLen_encode, beDecode_beBytes4 _ hn,
    drop_append_of_length _ _ (length_beBytes4 _)]
  have htake : (data.take n).length = data.length := by
    simp [List.length_take]; omega
  simp only [htake]
  have : data.length ≠ n := Nat.ne_of_lt hshort
  simp [this]

/-! ### Compositor helper lemmas -/

theorem length_doubleVerticalPastes (cfg : BoothConfig) (thumbH count : Nat) :
    (doubleVerticalPastes cfg thumbH count).length = 2 * count := by
  induction count with
  | zero => rfl
  | succ k ih =>
    unfold doubleVerticalPastes at ih ⊢
    rw [List.range_succ, List.flatMap_append]
    simp only [List.length_append, ih]
    simp
    ring

/-! ### Sequence loop helper lemmas -/

theorem collectPaths_length (outcomes : List (Option String)) :
    (collectPaths outcomes).length + outcomes.countP (fun o => o.isNone) =
      outcomes.length := by
  induction outcomes with
  | nil => rfl
  | cons o rest ih =>
    cases o <;> simp [collectPaths, List.countP_cons] <;> omega

theorem sequenceRun_fst (outcomes : List (Option String)) :
    (sequenceRun outcomes).1 = collectPaths outcomes := by
  induction outcomes with
  | nil => rfl
  | cons o rest ih => cases o <;> simp [sequenceRun, collectPaths, ih]

theorem sequenceRun_snd (outcomes : List (Option String)) :
    (sequenceRun outcomes).2 = .compositing := by
  induction outcomes with
  | nil => rfl
  | cons o rest ih => cases o <;> simp [sequenceRun, ih]

theorem collectIdx_mem_le (i : Nat) (outcomes : List (Option String))
    (q : Nat × String) (hq : q ∈ collectIdx i outcomes) : i ≤ q.1 := by
  induction outcomes generalizing i with
  | nil => simp [collectIdx] at hq
  | cons o rest ih =>
    cases o with
    | none => exact Nat.le_of_succ_le (ih (i + 1) hq)
    | some p =>
      rcases List.mem_cons.mp hq with h | h
      · subst h; exact Nat.le_refl i
      · exact Nat.le_of_succ_le (ih (i + 1) h)

theorem collectIdx_pairwise (i : Nat) (outcomes : List (Option String)) :
    (collectIdx i outcomes).Pairwise (fun a b => a.1 < b.1) := by
  induction outcomes generalizing i with
  | nil => exact List.Pairwise.nil
  | cons o rest ih =>
    cases o with
    | none => exact ih (i + 1)
    | some p =>
      refine List.Pairwise.cons ?_ (ih (i + 1))
      intro q hq
      exact Nat.lt_of_lt_of_le (Nat.lt_succ_self i) (collectIdx_mem_le _ _ _ hq)

theorem collectIdx_map_snd (i : Nat) (outcomes : List (Option String)) :
    (collectIdx i outcomes).map Prod.snd = collectPaths outcomes := by
  induction outcomes generalizing i with
  | nil => rfl
  | cons o rest ih =>
    cases o <;> simp [collectIdx, collectPaths, ih]

theorem collectPaths_hwOutcomes_mem (gen : Nat → String) (i : Nat)
    (success : List Bool) (p : String)
    (hp : p ∈ collectPaths (hwOutcomes gen i success)) :
    ∃ j, i ≤ j ∧ p = gen j := by
  induction success generalizing i with
  | nil => simp [hwOutcomes, collectPaths] at hp
  | cons b rest ih =>
    cases b with
    | false =>
      rcases ih (i + 1) hp with ⟨j, hj, hpj⟩
      exact ⟨j, Nat.le_of_succ_le hj, hpj⟩
    | true =>
      rcases List.mem_cons.mp hp with h | h
      · exact ⟨i, Nat.le_refl i, h⟩
      · rcases ih (i + 1) h with ⟨j, hj, hpj⟩
        exact ⟨j, Nat.le_of_succ_le hj, hpj⟩

theorem collectPaths_hwOutcomes_nodup (gen : Nat → String)
    (hgen : Function.Injective gen) (i : Nat) (success : List Bool) :
    (collectPaths (hwOutcomes gen i success)).Pairwise (fun a b => a ≠ b) := by
  induction success generalizing i with
  | nil => exact List.Pairwise.nil
  | cons b rest ih =>
    cases b with
    | false => exact ih (i + 1)
    | true =>
      refine List.Pairwise.cons ?_ (ih (i + 1))
      intro q hq hEq
      rcases collectPaths_hwOutcomes_mem gen (i + 1) rest q hq with ⟨j, hj, hqj⟩
      have : i = j := hgen (hEq.symm ▸ hqj ▸ rfl)
      omega

theorem tmpName_injective : Function.Injective tmpName := by
  intro a b h
  have hlen : (tmpName a).length = (tmpName b).length := by rw [h]
  simpa [tmpName, String.length] using hlen

/-! ### Print-select helper lemmas -/

theorem clickStep_not_band (n : Int) (x y : ℚ)
    (h : ¬ ((3 : ℚ)/10 < y ∧ y < 7/10)) : clickStep n x y = .cont n := by
  unfold clickStep
  simp [h]

theorem clickStep_stop_of_confirm (n : Int) (x y : ℚ)
    (h : isConfirmClick x y) : clickStep n x y = .stop n := by
  rcases h with ⟨hband, hx⟩
  have hx1 : ¬ x > 11/20 := not_lt.mpr (le_of_lt hx.2)
  have hx2 : ¬ x < 9/20 := not_lt.mpr (le_of_lt hx.1)
  simp [clickStep, hband, hx1, hx2, hx]

theorem clickStep_cont_of_not_confirm (n : Int) (x y : ℚ)
    (h : ¬ isConfirmClick x y) :
    clickStep n x y = .cont (contValue n (some (x, y))) := by
  by_cases h1 : (3 : ℚ)/10 < y ∧ y < 7/10
  · by_cases h2 : x > 11/20
    · simp [clickStep, contValue, h1, h2]
    · by_cases h3 : x < 9/20
      · simp [clickStep, contValue, h1, h2, h3]
      · have h4 : ¬ ((9 : ℚ)/20 < x ∧ x < 11/20) := fun hc => h ⟨h1, hc⟩
        simp [clickStep, contValue, h1, h2, h3, h4]
  · simp [clickStep, contValue, h1]

theorem contValue_bounds (n : Int) (e : Option (ℚ × ℚ))
    (h0 : 0 ≤ n) (h6 : n ≤ 6) :
    0 ≤ contValue n e ∧ contValue n e ≤ 6 := by
  rcases e with _ | ⟨x, y⟩
  · exact ⟨h0, h6⟩
  · simp only [contValue]
    split_ifs <;> constructor <;> omega

theorem printSelect_bounds (events : List (Option (ℚ × ℚ))) (n : Int)
    (h0 : 0 ≤ n) (h6 : n ≤ 6) :
    0 ≤ printSelect events n ∧ printSelect events n ≤ 6 := by
  induction events generalizing n with
  | nil => exact ⟨h0, h6⟩
  | cons e rest ih =>
    rcases e with _ | ⟨x, y⟩
    · exact ih n h0 h6
    · by_cases hc : isConfirmClick x y
      · show 0 ≤ printSelect (some (x, y) :: rest) n ∧ _
        unfold printSelect
        rw [clickStep_stop_of_confirm n x y hc]
        exact ⟨h0, h6⟩
      · show 0 ≤ printSelect (some (x, y) :: rest) n ∧ _
        unfold printSelect
        rw [clickStep_cont_of_not_confirm n x y hc]
        have hb := contValue_bounds n (some (x, y)) h0 h6
        exact ih _ hb.1 hb.2

theorem printSelect_no_confirm (events : List (Option (ℚ × ℚ))) (n : Int)
    (h : ∀ x y, some (x, y) ∈ events → ¬ isConfirmClick x y) :
    printSelect events n = events.foldl contValue n := by
  induction events generalizing n with
  | nil => rfl
  | cons e rest ih =>
    rcases e with _ | ⟨x, y⟩
    · show printSelect (none :: rest) n = _
      unfold printSelect
      rw [List.foldl_cons]
      exact ih n fun a b hab => h a b (List.mem_cons_of_mem _ hab)
    · show printSelect (some (x, y) :: rest) n = _
      unfold printSelect
      rw [clickStep_cont_of_not_confirm n x y (h x y (List.mem_cons_self _ _)),
        List.foldl_cons]
      exact ih _ fun a b hab => h a b (List.mem_cons_of_mem _ hab)

/-! ### Preview loop helper lemma -/

theorem previewLoop_exhaust (sends : List SendOutcome) (fc : Nat)
    (hfc : fc ≤ 2)
    (hcount : 3 - fc ≤ sends.countP (fun s => decide (s = .pathMissing))) :
    previewLoop fc sends = .error 1 := by
  induction sends generalizing fc with
  | nil => simp [List.countP_nil] at hcount; omega
  | cons s rest ih =>
    cases s with
    | delivered =>
      show previewLoop fc (.delivered :: rest) = _
      unfold previewLoop previewStep
      simp only [List.countP_cons] at hcount
      simp at hcount
      exact ih fc hfc (by omega)
    | refused =>
      show previewLoop fc (.refused :: rest) = _
      unfold previewLoop previewStep
      simp only [List.countP_cons] at hcount
      simp at hcount
      exact ih fc hfc (by omega)
    | pathMissing =>
      show previewLoop fc (.pathMissing :: rest) = _
      unfold previewLoop previewStep
      by_cases h2 : fc = 2
      · subst h2; rfl
      · have : (fc == 2) = false := by simp [h2]
        rw [this]
        simp only [List.countP_cons] at hcount
        simp at hcount
        exact ih (fc + 1) (by omega) (by omega)

/-! ## Claim theorems -/

/-- C1: the configuration validates and keeps `"SingleVertical"`, yet
`Photostrip.composite` compares `bg_mode` against the misspelled literal
`"SingleVerticaL"`, so a 4-shot SingleVertical sequence falls through to
`assert False, "Composite mode unknown"` instead of pasting the 4 stacked
thumbnails; only the unreachable misspelled mode value would produce the
single-column layout the claim describes, pasting thumbnail `i` at
`(ThumbnailX, ThumbnailY + (thumb_h + ThumbnailSkipY) * i)`. -/
theorem C1_singleVertical_composite_asserts :
    normalizeBgMode "SingleVertical" = "SingleVertical"
    ∧ cfgScenarioA.BackgroundMode = "SingleVertical"
    ∧ composite cfgScenarioA photosScenarioA = .error .unknownMode
    ∧ composite { cfgScenarioA with BackgroundMode := "SingleVerticaL" }
        photosScenarioA =
        .ok [⟨0, 10, 20⟩, ⟨1, 10, 175⟩, ⟨2, 10, 330⟩, ⟨3, 10, 485⟩] :=
  ⟨rfl, rfl, rfl, rfl⟩

/-- C2: the print-count selection loop starts at 2 copies and runs at most
200 poll iterations; a vertical-band click with horizontal fraction above
0.55 sets `min(n+2, 6)`, below 0.45 sets `max(n-2, 0)`, in the central
band returns the current count immediately; clicks outside the vertical
band change nothing; the count stays within [0, 6]; and with no confirming
click the loop proceeds with the accumulated count. -/
theorem C2_print_select_loop :
    initialCopies = 2
    ∧ printSelectIterations = 200
    ∧ (∀ events, printSelectRun events = printSelect (events.take 200) 2)
    ∧ (∀ (n : Int) (x y : ℚ), (3 : ℚ)/10 < y → y < 7/10 → 11/20 < x →
        clickStep n x y = .cont (min (n + 2) 6))
    ∧ (∀ (n : Int) (x y : ℚ), (3 : ℚ)/10 < y → y < 7/10 → x < 9/20 →
        clickStep n x y = .cont (max (n - 2) 0))
    ∧ (∀ (n : Int) rest (x y : ℚ), isConfirmClick x y →
        printSelect (some (x, y) :: rest) n = n)
    ∧ (∀ (n : Int) (x y : ℚ), ¬ ((3 : ℚ)/10 < y ∧ y < 7/10) →
        clickStep n x y = .cont n)
    ∧ (∀ events (n : Int), 0 ≤ n → n ≤ 6 →
        0 ≤ printSelect events n ∧ printSelect events n ≤ 6)
    ∧ (∀ events, (∀ x y, some (x, y) ∈ events → ¬ isConfirmClick x y) →
        printSelectRun events = (events.take 200).foldl contValue 2) := by
  refine ⟨rfl, rfl, fun events => rfl, ?_, ?_, ?_, ?_, printSelect_bounds, ?_⟩
  · intro n x y h1 h2 h3
    simp [clickStep, h1, h2, h3]
  · intro n x y h1 h2 h3
    have h4 : ¬ ((11 : ℚ)/20 < x) := by
      intro hc
      have : (9 : ℚ)/20 < 11/20 := by norm_num
      linarith
    simp [clickStep, h1, h2, h3, h4]
  · intro n rest x y h
    unfold printSelect
    rw [clickStep_stop_of_confirm n x y h]
  · intro n x y h
    exact clickStep_not_band n x y h
  · intro events h
    exact printSelect_no_confirm _ _ fun x y hm =>
      h x y (List.mem_of_mem_take hm)

/-- C2 witness: concrete clicks exercise the increment, decrement, confirm,
ignore, bound and timeout parts of `C2_print_select_loop`. -/
theorem C2_print_select_loop_witness :
    clickStep 2 (3/5) (1/2) = .cont (min (2 + 2) 6)
    ∧ clickStep 2 (1/5) (1/2) = .cont (max (2 - 2) 0)
    ∧ printSelect [some (1/2, 1/2)] 5 = 5
    ∧ clickStep 3 (3/5) (9/10) = .cont 3
    ∧ (0 ≤ printSelect [some (3/5, 1/2)] 2 ∧ printSelect [some (3/5, 1/2)] 2 ≤ 6)
    ∧ printSelectRun [none] = ([(none : Option (ℚ × ℚ))].take 200).foldl contValue 2 := by
  obtain ⟨-, -, -, h4, h5, h6, h7, h8, h9⟩ := C2_print_select_loop
  refine ⟨h4 2 (3/5) (1/2) (by norm_num) (by norm_num) (by norm_num),
    h5 2 (1/5) (1/2) (by norm_num) (by norm_num) (by norm_num),
    h6 5 [] (1/2) (1/2) ⟨⟨by norm_num, by norm_num⟩, by norm_num, by norm_num⟩,
    h7 3 (3/5) (9/10) (by norm_num),
    h8 [some (3/5, 1/2)] 2 (by norm_num) (by norm_num),
    h9 [none] ?_⟩
  intro x y hm
  simp at hm

/-- C3: framing a byte sequence of length 0, 1, 65536 or 10,000,000−1 as a
4-byte big-endian length header plus the bytes and running one receive-loop
iteration reproduces the sequence exactly; a header announcing more bytes
than arrive makes the iteration discard the frame without emitting and
without failing. -/
theorem C3_framed_stream_round_trip :
    (∀ f rest : List Nat, f.length ∈ ([0, 1, 65536, 9999999] : List Nat) →
        receiverStep (encodeFrame f ++ rest) = (some f, rest))
    ∧ (∀ (n : Nat) (data : List Nat), n < 4294967296 → data.length < n →
        (receiverStep (beBytes4 n ++ data)).1 = none) := by
  constructor
  · intro f rest hmem
    apply receiverStep_encodeFrame
    simp only [List.mem_cons, List.not_mem_nil, or_false] at hmem
    rcases hmem with h | h | h | h <;> omega
  · exact receiverStep_short_payload

/-- C3 witness: the one-byte frame `[7]` round-trips in front of a further
stream byte, and a header announcing 2 bytes followed by none is
discarded. -/
theorem C3_framed_stream_round_trip_witness :
    ([7] : List Nat).length ∈ ([0, 1, 65536, 9999999] : List Nat)
    ∧ receiverStep (encodeFrame [7] ++ [9]) = (some [7], [9])
    ∧ (receiverStep (beBytes4 2 ++ [])).1 = none := by
  refine ⟨by decide, C3_framed_stream_round_trip.1 [7] [9] (by decide),
    C3_framed_stream_round_trip.2 2 [] (by decide) (by decide)⟩

/-- C4: the capture wait uses the fixed 10-second socket timeout; the
inter-shot delay timer is started before the result wait in the per-shot
action order; a timed-out shot appends no path and the loop continues; and
the shot loop always ends in the compositing phase, a single timeout
leaving exactly one fewer populated path. -/
theorem C4_capture_timeout_progress :
    captureTimeoutSeconds = 10
    ∧ shotEvents.indexOf .timerStart < shotEvents.indexOf .recvWait
    ∧ (∀ rest, collectPaths (none :: rest) = collectPaths rest)
    ∧ (∀ outcomes, (sequenceRun outcomes).2 = .compositing)
    ∧ (∀ outcomes : List (Option String),
        outcomes.countP (fun o => o.isNone) = 1 →
        (sequenceRun outcomes).1.length + 1 = outcomes.length) := by
  refine ⟨rfl, by decide, fun rest => rfl, sequenceRun_snd, ?_⟩
  intro outcomes h
  rw [sequenceRun_fst]
  have := collectPaths_length outcomes
  omega

/-- C4 witness: a 2-shot run whose second shot times out reaches compositing
with one populated path. -/
theorem C4_capture_timeout_progress_witness :
    (([some "cap_a.jpg", none] : List (Option String)).countP
        (fun o => o.isNone) = 1)
    ∧ (sequenceRun [some "cap_a.jpg", none]).1.length + 1 =
        ([some "cap_a.jpg", none] : List (Option String)).length := by
  refine ⟨by decide, C4_capture_timeout_progress.2.2.2.2 _ (by decide)⟩

/-- C5: while the single-sequence semaphore is held, `handleClick` starts no
second sequence thread and appends the click to the queue (the semaphore
stays held); and the queue drain at the start of the print-count phase
always leaves an empty queue, so earlier clicks are never interpreted
there. -/
theorem C5_permit_and_click_queue :
    (∀ (s : GuiState) (c : ℚ × ℚ), s.semAvailable = false →
        (handleClick s c).sequencesStarted = s.sequencesStarted
        ∧ (handleClick s c).queue = s.queue ++ [c]
        ∧ (handleClick s c).semAvailable = false)
    ∧ (∀ q, emptyClickQueue q = []) := by
  constructor
  · intro s c h
    simp [handleClick, h]
  · intro q
    induction q with
    | nil => rfl
    | cons a rest ih => exact ih

/-- C5 witness: with the semaphore held and one click queued, a new click is
queued without starting a sequence, and the drain empties a 2-click
queue. -/
theorem C5_permit_and_click_queue_witness :
    (handleClick ⟨false, [], 1⟩ (1/2, 1/2)).sequencesStarted = 1
    ∧ (handleClick ⟨false, [], 1⟩ (1/2, 1/2)).queue = [(1/2, 1/2)]
    ∧ emptyClickQueue [(1/2, 1/2), (1/4, 3/4)] = [] := by
  have h := C5_permit_and_click_queue
  refine ⟨(h.1 ⟨false, [], 1⟩ (1/2, 1/2) rfl).1, ?_, h.2 _⟩
  have hq := (h.1 (⟨false, [], 1⟩ : GuiState) (1/2, 1/2) rfl).2.1
  simpa using hq

/-- C6 counterexample: a result send whose destination endpoint path does not
exist raises `FileNotFoundError` out of `_capture_image` — only
`ConnectionRefusedError` is caught — so the failure is not swallowed as the
claim states. -/
theorem C6_counterexample_absent_endpoint_raises :
    (captureImage false "cap_result.jpg" .pathMissing).raised = some .fileNotFound
    ∧ (captureImage false "cap_result.jpg" .pathMissing).raised ≠ none :=
  ⟨rfl, by decide⟩

/-- C6 amended: after a completed capture exactly one datagram is attempted,
never retried, carrying the result path (the fixed mock path in mock mode);
a `ConnectionRefusedError` on the hardware path is logged and swallowed,
while a send to an absent endpoint path (`FileNotFoundError`) propagates,
as does any send failure in mock mode. -/
theorem C6_amended_send_semantics :
    (∀ (mock : Bool) target send,
        (captureImage mock target send).sendAttempts.length = 1)
    ∧ (∀ target send, (captureImage false target send).sendAttempts = [target])
    ∧ (∀ target send,
        (captureImage true target send).sendAttempts = [mockResultPath])
    ∧ (∀ target, (captureImage false target .refused).raised = none
        ∧ (captureImage false target .refused).logs = ["Connection was refused"])
    ∧ (∀ target,
        (captureImage false target .pathMissing).raised = some .fileNotFound)
    ∧ (∀ target send, (captureImage true target send).raised = none ↔
        send = .delivered) := by
  refine ⟨?_, fun target send => rfl, fun target send => rfl,
    fun target => ⟨rfl, rfl⟩, fun target => rfl, ?_⟩
  · intro mock target send
    cases mock <;> rfl
  · intro target send
    cases send <;> simp [captureImage]

/-- C7: on the preview-datagram path a refused send consumes no retry budget,
an absent-endpoint send consumes one unit of the 3-unit budget, and the
third absent-endpoint failure makes the process exit with status 1. -/
theorem C7_preview_retry_budget :
    (∀ fc, previewStep fc .refused = .ok fc)
    ∧ (∀ fc, previewStep fc .delivered = .ok fc)
    ∧ (∀ fc, fc < 2 → previewStep fc .pathMissing = .ok (fc + 1))
    ∧ previewStep 2 .pathMissing = .error 1
    ∧ (∀ sends, 3 ≤ sends.countP (fun s => decide (s = .pathMissing)) →
        previewLoop 0 sends = .error 1) := by
  refine ⟨fun fc => rfl, fun fc => rfl, ?_, rfl, ?_⟩
  · intro fc h
    unfold previewStep
    have hb : (fc == 2) = false := by
      simp
      omega
    rw [hb]
    rfl
  · intro sends h
    exact previewLoop_exhaust sends 0 (by omega) (by omega)

/-- C7 witness: a second absent-endpoint failure only increments the budget,
and a concrete outcome list with three absent-endpoint failures (one refused
send interleaved, consuming nothing) exits with status 1. -/
theorem C7_preview_retry_budget_witness :
    previewStep 1 .pathMissing = .ok (1 + 1)
    ∧ previewLoop 0 [.pathMissing, .refused, .pathMissing, .pathMissing] =
        .error 1 := by
  refine ⟨C7_preview_retry_budget.2.2.1 1 (by decide),
    C7_preview_retry_budget.2.2.2.2 _ (by decide)⟩

/-- C8 counterexample: two successful mock-mode shots record the fixed path
`"mock_image.jpg"` twice, so the present entries are not pairwise distinct
as the claim states. -/
theorem C8_counterexample_mock_duplicates :
    collectPaths (mockOutcomes 2) = [mockResultPath, mockResultPath]
    ∧ ¬ (collectPaths (mockOutcomes 2)).Pairwise (fun a b => a ≠ b) := by
  refine ⟨rfl, ?_⟩
  intro h
  have hred : collectPaths (mockOutcomes 2) = [mockResultPath, mockResultPath] := rfl
  rw [hred] at h
  exact (List.pairwise_cons.mp h).1 mockResultPath (List.mem_singleton.mpr rfl) rfl

/-- C8 amended: the captured-path list never exceeds the shot count, its
entries keep strictly increasing shot indices (capture order), hardware-mode
entries drawn from an injective fresh-temp-name generator are pairwise
distinct, but mock-mode entries all equal the fixed result path. -/
theorem C8_amended_captured_paths :
    (∀ outcomes : List (Option String),
        (collectPaths outcomes).length ≤ outcomes.length)
    ∧ (∀ i outcomes, (collectIdx i outcomes).Pairwise (fun a b => a.1 < b.1))
    ∧ (∀ i outcomes, (collectIdx i outcomes).map Prod.snd = collectPaths outcomes)
    ∧ (∀ gen : Nat → String, Function.Injective gen → ∀ success,
        (collectPaths (hwOutcomes gen 0 success)).Pairwise (fun a b => a ≠ b))
    ∧ (∀ n, collectPaths (mockOutcomes n) = List.replicate n mockResultPath) := by
  refine ⟨?_, collectIdx_pairwise, collectIdx_map_snd, ?_, ?_⟩
  · intro outcomes
    have := collectPaths_length outcomes
    omega
  · intro gen hgen success
    exact collectPaths_hwOutcomes_nodup gen hgen 0 success
  · intro n
    induction n with
    | zero => rfl
    | succ k ih =>
      unfold mockOutcomes at ih ⊢
      rw [List.replicate_succ, List.replicate_succ]
      show mockResultPath :: collectPaths (List.replicate k (some mockResultPath)) = _
      rw [ih]

/-- C8 witness: a 3-shot hardware run with a timeout in the middle, using the
injective generator `tmpName`, yields pairwise distinct paths. -/
theorem C8_amended_captured_paths_witness :
    (collectPaths (hwOutcomes tmpName 0 [true, false, true])).Pairwise
      (fun a b => a ≠ b) :=
  C8_amended_captured_paths.2.2.2.1 tmpName tmpName_injective [true, false, true]

/-- C9 counterexample: an empty captured-path list (all shots timed out) makes
`composite` hit the `photos[0]` IndexError even under the validated
`DoubleVertical` mode, contradicting completes-without-hard-failure for
possibly-empty inputs. -/
theorem C9_counterexample_empty_list_raises :
    composite cfgScenarioD [] = .error .indexError := rfl

/-- C9 amended: for every NON-empty captured-path sequence under the validated
`DoubleVertical` mode, `composite` completes without failure, producing two
pastes per present photo — a shot with no recorded path simply contributes
no paste, leaving background at its slot.  (The empty list hits `photos[0]`,
and `SingleVertical` mode always fails with the mode-string bug of C1.) -/
theorem C9_amended_composite_total (cfg : BoothConfig) (w h : Nat)
    (rest : List (Nat × Nat)) (hmode : cfg.BackgroundMode = "DoubleVertical") :
    composite cfg ((w, h) :: rest) =
      .ok (doubleVerticalPastes cfg (thumbHeight cfg.ThumbnailWidth w h)
        ((w, h) :: rest).length)
    ∧ (doubleVerticalPastes cfg (thumbHeight cfg.ThumbnailWidth w h)
        ((w, h) :: rest).length).length = 2 * ((w, h) :: rest).length := by
  constructor
  · show (if cfg.BackgroundMode = "SingleVerticaL" then _
      else if cfg.BackgroundMode = "DoubleVertical" then _ else _) = _
    rw [hmode, if_neg (by decide), if_pos rfl]
  · exact length_doubleVerticalPastes cfg _ _

/-- C9 witness: one 400x300 photo under the validated DoubleVertical mode
composites successfully into two pastes. -/
theorem C9_amended_composite_total_witness :
    cfgScenarioD.BackgroundMode = "DoubleVertical"
    ∧ composite cfgScenarioD [(400, 300)] =
        .ok (doubleVerticalPastes cfgScenarioD
          (thumbHeight cfgScenarioD.ThumbnailWidth 400 300) 1)
    ∧ (doubleVerticalPastes cfgScenarioD
        (thumbHeight cfgScenarioD.ThumbnailWidth 400 300) 1).length = 2 * 1 := by
  have h := C9_amended_composite_total cfgScenarioD 400 300 [] rfl
  exact ⟨rfl, h.1, h.2⟩

/-- C10: the receive loop's header guard compares the header byte-length
(at most 4) against 10,000,000 and can never fire on that disjunct, so the
only header rejection is a short header read; every decoded 32-bit value is
accepted verbatim as the payload read size, and a frame with a full header
is emitted exactly when the payload is long enough. -/
theorem C10_no_frame_size_limit :
    (∀ s : List Nat, ¬ (10000000 < (s.take 4).length))
    ∧ (∀ hdr : List Nat, hdr.length = 4 → sizeGuard hdr = false)
    ∧ (∀ s : List Nat, requestedLen s = none ↔ (s.take 4).length ≠ 4)
    ∧ (∀ (n : Nat) (rest : List Nat), n < 4294967296 →
        requestedLen (beBytes4 n ++ rest) = some n)
    ∧ (∀ (n : Nat) (rest : List Nat), n < 4294967296 →
        ((receiverStep (beBytes4 n ++ rest)).1 = some (rest.take n) ↔
          n ≤ rest.length)) := by
  refine ⟨?_, ?_, ?_, ?_, ?_⟩
  · intro s
    have := List.length_take_le 4 s
    omega
  · intro hdr h
    simp [sizeGuard, h]
  · intro s
    have hle := List.length_take_le 4 s
    unfold requestedLen
    split_ifs with hg
    · unfold sizeGuard at hg
      simp only [Bool.or_eq_true, bne_iff_ne, ne_eq, decide_eq_true_eq] at hg
      constructor
      · intro _
        omega
      · intro _
        rfl
    · unfold sizeGuard at hg
      simp only [Bool.or_eq_true, bne_iff_ne, ne_eq, decide_eq_true_eq,
        not_or, not_not] at hg
      simp [hg.1]
  · intro n rest hn
    rw [requestedLen_encode, beDecode_beBytes4 _ hn]
  · intro n rest hn
    rw [receiverStep_full_header n rest hn]
    by_cases hle : n ≤ rest.length
    · have heq : (rest.take n).length = n := List.length_take_of_le hle
      rw [if_neg (by omega)]
      simp [hle]
    · have heq : rest.take n = rest := List.take_of_length_le (by omega)
      rw [if_pos (by rw [heq]; omega)]
      simp [hle]

/-- C10 witness: a header decoding to 3 passes the guard, requests a 3-byte
read, and a 4-byte payload suffices for emission. -/
theorem C10_no_frame_size_limit_witness :
    sizeGuard (beBytes4 3) = false
    ∧ requestedLen (beBytes4 3 ++ [7, 8, 9, 10]) = some 3
    ∧ (receiverStep (beBytes4 3 ++ [7, 8, 9, 10])).1 = some ([7, 8, 9, 10].take 3) := by
  have h := C10_no_frame_size_limit
  exact ⟨h.2.1 (beBytes4 3) rfl, h.2.2.2.1 3 [7, 8, 9, 10] (by decide),
    (h.2.2.2.2 3 [7, 8, 9, 10] (by decide)).mpr (by decide)⟩

end BugBooth
